import Mathlib

/-
Verification development for the jfsh player-control subsystem.

Shallow embedding of the Go sources:
  * internal/mpv/mpv.go  : version gate, command encoding, request marshaling
  * internal/mpv/play.go : time conversions, playlist construction, event loop
  * jellyfin/client.go   : position handling of the report calls

Modelling conventions:
  * float64 positions and timestamps are modelled by Rat;
    Go's int64(float64) conversion truncates toward zero.
  * Go maps keyed by float64 are modelled as association lists in
    insertion order (Go map iteration order is unspecified; the spec
    flags the overlap tie-break as an open question).
  * Fallible steps return Option; a Go early return on failure is the
    none branch.
-/

namespace Jfsh

/-! ### Time conversions (play.go)

`secondsToTicks` is `int64(seconds * 10_000_000)`: Go's float-to-int
conversion truncates toward zero. `ticksToSeconds` is exact division. -/

def secondsToTicks (seconds : ℚ) : ℤ :=
  if 0 ≤ seconds then ⌊seconds * 10000000⌋ else ⌈seconds * 10000000⌉

def ticksToSeconds (ticks : ℤ) : ℚ :=
  (ticks : ℚ) / 10000000

/-! ### isInsideSkippableSegment (play.go)

Returns the end of the segment that `pos` is inside of, 0 if none.
The Go code ranges over a map; the model scans the association list. -/

def isInsideSkippableSegment (segments : List (ℚ × ℚ)) (pos : ℚ) : ℚ :=
  match segments.find? (fun p => decide (p.1 ≤ pos) && decide (pos < p.2)) with
  | some p => p.2
  | none => 0

/-! ### Version gate (mpv.go, isOldMpv)

The Go function shells out for the banner; the model takes the banner
text as input. Each Go early `return false` is a failure branch. -/

/-- Go whitespace per `bytes.Fields` (ASCII part of unicode.IsSpace). -/
def isGoSpace (c : Char) : Bool :=
  c = ' ' || c = '\t' || c = '\n' || c = Char.ofNat 11 || c = Char.ofNat 12 || c = '\r'

/-- `bytes.Fields`: split around runs of whitespace, no empty fields. -/
def goFieldsAux : List Char → List Char → List (List Char)
  | [], acc => if acc.isEmpty then [] else [acc.reverse]
  | c :: rest, acc =>
    if isGoSpace c then
      if acc.isEmpty then goFieldsAux rest [] else acc.reverse :: goFieldsAux rest []
    else
      goFieldsAux rest (c :: acc)

def goFields (s : List Char) : List (List Char) := goFieldsAux s []

/-- `bytes.IndexByte(output, n)` then `output[:idx]`: the text before the
first newline, or none when the banner has no newline (early false). -/
def takeFirstLine (s : List Char) : Option (List Char) :=
  if s.contains '\n' then some (s.takeWhile (fun c => c ≠ '\n')) else none

/-- `strings.TrimPrefix(version, "v")`: drop one leading v. -/
def dropLeadingV : List Char → List Char
  | 'v' :: rest => rest
  | l => l

/-- `strings.Split(version, ".")`: keeps empty components. -/
def splitOnDotAux : List Char → List Char → List (List Char)
  | [], acc => [acc.reverse]
  | c :: rest, acc =>
    if c = '.' then acc.reverse :: splitOnDotAux rest [] else splitOnDotAux rest (c :: acc)

def splitOnDot (s : List Char) : List (List Char) := splitOnDotAux s []

def digitVal (c : Char) : Option ℕ :=
  if '0' ≤ c ∧ c ≤ '9' then some (c.toNat - '0'.toNat) else none

def digitsVal : List Char → Option ℕ
  | [] => none
  | l => l.foldl (fun acc c => acc.bind (fun n => (digitVal c).map (fun d => n * 10 + d)))
      (some 0)

/-- `strconv.Atoi`: optional sign then one or more digits, nothing else.
(Overflow of the machine int is not modelled; no claim depends on it.) -/
def goAtoi : List Char → Option ℤ
  | '+' :: rest => (digitsVal rest).map (fun n => (n : ℤ))
  | '-' :: rest => (digitsVal rest).map (fun n => -(n : ℤ))
  | l => (digitsVal l).map (fun n => (n : ℤ))

/-- The comparison loop of isOldMpv: for each component in order, parse it
and compare with the target; a parse failure anywhere returns false, a
strictly smaller component returns true, a strictly larger one false,
an equal one moves on; falling off the end returns false. -/
def versionCmpLoop : List (List Char) → List ℤ → Bool
  | p :: ps, t :: ts =>
    match goAtoi p with
    | none => false
    | some v => if v < t then true else if t < v then false else versionCmpLoop ps ts
  | _, _ => false

/-- The structural part of isOldMpv's parse: first line of the banner,
second whitespace field, leading v stripped, text before the first dash,
split on dots into exactly three components. -/
def versionParts (banner : String) : Option (List (List Char)) :=
  match takeFirstLine banner.toList with
  | none => none
  | some line =>
    match goFields line with
    | _ :: f1 :: _ =>
      let version := (dropLeadingV f1).takeWhile (fun c => c ≠ '-')
      let parts := splitOnDot version
      if parts.length = 3 then some parts else none
    | _ => none

/-- isOldMpv (mpv.go): true when the banner's version is older than
0.38.0. Components are parsed inside the comparison loop, so a
non-integer component is only reached when the earlier components
compare equal. -/
def isOldMpv (banner : String) : Bool :=
  match versionParts banner with
  | none => false
  | some parts => versionCmpLoop parts [0, 38, 0]

/-- The parse exactly as the claim words it: all three components must be
integers. Used to compare the claim's reading with the code. -/
def specParsedVersion (banner : String) : Option (ℤ × ℤ × ℤ) :=
  match versionParts banner with
  | some [a, b, c] =>
    match goAtoi a, goAtoi b, goAtoi c with
    | some x, some y, some z => some (x, y, z)
    | _, _, _ => none
  | _ => none

/-- Lexicographic strictly-less-than against (0, 38, 0). -/
def lexLt380 (x y z : ℤ) : Prop :=
  x < 0 ∨ (x = 0 ∧ (y < 38 ∨ (y = 38 ∧ z < 0)))

instance (x y z : ℤ) : Decidable (lexLt380 x y z) := by
  unfold lexLt380; infer_instance

/-! ### Command encoding (mpv.go)

The `[]any` argument lists of the five command builders. `decStr q`
stands for `strconv.FormatFloat(q, 'f', 6, 64)`, the fixed-precision
decimal string of `q`; JSON objects built from Go maps are listed with
their keys in sorted order, as `encoding/json` emits them. -/

inductive GoVal where
  | str (s : String)
  | int (n : ℤ)
  | num (q : ℚ)
  | decStr (q : ℚ)
  | arr (l : List GoVal)
  | obj (l : List (String × GoVal))

inductive MpvCommand where
  | observe (name : String)
  | seekCmd (pos : ℚ)
  | loadReplace (url title : String) (start : ℚ)
  | loadAppend (url title : String)
  | loadInsertFront (url title : String)
  | subAdd (url title lang : String)

/-- The wire argument list a command produces, `none` when nothing is
sent at all: on an old player `prependFile` refuses (logs and returns
nil without sending), and append/replace omit the position index 0. -/
def encodeCommand (old : Bool) : MpvCommand → Option (List GoVal)
  | .observe name => some [.str "observe_property", .int 1, .str name]
  | .seekCmd pos => some [.str "seek", .num pos, .str "absolute"]
  | .loadReplace url title start =>
    some ([.str "loadfile", .str url, .str "replace"]
      ++ (if old then [] else [.int 0])
      ++ [.obj [("force-media-title", .str title), ("start", .decStr start)]])
  | .loadAppend url title =>
    some ([.str "loadfile", .str url, .str "append"]
      ++ (if old then [] else [.int 0])
      ++ [.obj [("force-media-title", .str title)]])
  | .loadInsertFront url title =>
    if old then none
    else some [.str "loadfile", .str url, .str "insert-at", .int 0,
      .obj [("force-media-title", .str title)]]
  | .subAdd url title lang =>
    some [.str "sub-add", .str url, .str "auto", .str title, .str lang]

/-- `send` marshals `request{Command: command, ID: rand.Intn(1000)}`.
The struct tags are `json:"command"` and `json:"request_id,omitempty"`:
with `omitempty`, a zero `ID` is left out of the serialized object.
The result lists the top-level JSON fields in struct order. -/
def marshalRequest (command : List GoVal) (id : ℕ) : List (String × GoVal) :=
  ("command", GoVal.arr command) :: (if id = 0 then [] else [("request_id", GoVal.int id)])

/-- The bound of `rand.Intn(1000)` used for correlation ids. -/
def randIntnBound : ℕ := 1000

/-! ### Playlist construction (play.go, Play, lines 44-74)

`Play` loads the start item with replace, then appends the items after
it in ascending order, then prepends the items before it in descending
order, appending the original item index to `playlistIDs` after each
call whether or not a command was actually sent (on an old player
`prependFile` sends nothing). Items are represented by their index. -/

inductive IssuedCmd where
  | replaceC (i : ℕ)
  | appendC (i : ℕ)
  | insertFrontC (i : ℕ)
deriving DecidableEq

/-- The item index a load/insert command loads. -/
def IssuedCmd.item : IssuedCmd → ℕ
  | .replaceC i => i
  | .appendC i => i
  | .insertFrontC i => i

inductive BuildAct where
  | load (i : ℕ)
  | app (i : ℕ)
  | pre (i : ℕ)
deriving DecidableEq

def BuildAct.isPre : BuildAct → Bool
  | .pre _ => true
  | _ => false

/-- The sequence of load calls `Play` makes for `n` items and start
index `s`: `playFile` for `s`, `appendFile` for `s+1 .. n-1` ascending,
`prependFile` for `s-1 .. 0` descending. -/
def buildActs (n s : ℕ) : List BuildAct :=
  BuildAct.load s :: ((List.range' (s + 1) (n - (s + 1))).map BuildAct.app
    ++ (List.range s).reverse.map BuildAct.pre)

/-- One load call: the slot map (`playlistIDs`) always grows; a command
is recorded only when one is sent — `prependFile` on an old player
refuses and sends nothing (mpv.go, prependFile). -/
def doBuild (old : Bool) (st : List ℕ × List IssuedCmd) (a : BuildAct) :
    List ℕ × List IssuedCmd :=
  match a with
  | .load i => (st.1 ++ [i], st.2 ++ [.replaceC i])
  | .app i => (st.1 ++ [i], st.2 ++ [.appendC i])
  | .pre i => (st.1 ++ [i], if old then st.2 else st.2 ++ [.insertFrontC i])

/-- The slot map and issued commands after the first `k` load calls. -/
def buildState (old : Bool) (n s k : ℕ) : List ℕ × List IssuedCmd :=
  ((buildActs n s).take k).foldl (doBuild old) ([], [])

/-- The slot map and issued commands after the whole construction. -/
def buildPlaylist (old : Bool) (n s : ℕ) : List ℕ × List IssuedCmd :=
  (buildActs n s).foldl (doBuild old) ([], [])

/-! ### Event loop (play.go, Play, lines 76-187)

One iteration of the `for mpv.scanner.Scan()` loop on an already
decoded message. External results (the wall clock, the remote-service
call results, the fetched segment and subtitle lists) are supplied
through `Env`; the remote calls themselves are the spec's external
collaborators, recorded as effects. Report results other than the
progress one only get logged, so only `progressOk` is carried. -/

inductive MData where
  | num (x : ℚ)
  | other
deriving DecidableEq

/-- The decoded inbound message (mpv.go, `message`). `data` is `none`
for a JSON null/absent field, `MData.other` for a non-float64 value. -/
structure Message where
  event : String := ""
  name : String := ""
  data : Option MData := none
  playlistID : ℤ := 0
deriving DecidableEq

structure Env where
  now : ℚ := 0
  progressOk : Bool := true
  segments : List (ℤ × ℤ) := []
  subtitles : List (String × String × String) := []
deriving DecidableEq

inductive Effect where
  | sendSeek (pos : ℚ)
  | reportProgress (itemIdx : ℕ) (ticks : ℤ)
  | reportStart (itemIdx : ℕ) (ticks : ℤ)
  | reportStopped (itemIdx : ℕ) (ticks : ℤ)
  | addSubtitle (url title lang : String)
deriving DecidableEq

/-- The loop-local mutable state of `Play`. `lastProgressUpdate` is
`none` for the zero `time.Time{}` a seek event stores (its `time.Since`
always exceeds 3 seconds), `some t` for an actual timestamp. -/
structure SessionState where
  pos : ℚ
  lastProgressUpdate : Option ℚ
  itemIdx : ℕ
  skippableSegments : List (ℚ × ℚ)
deriving DecidableEq

/-- State at loop entry: `pos := 0`, `lastProgressUpdate := time.Now()`,
`item := items[index]`, empty segment map. -/
def initState (t0 : ℚ) (index : ℕ) : SessionState :=
  { pos := 0, lastProgressUpdate := some t0, itemIdx := index, skippableSegments := [] }

/-- `time.Since(lastProgressUpdate) > 3*time.Second`. -/
def timeSinceGT3 (now : ℚ) : Option ℚ → Bool
  | none => true
  | some t => decide (3 < now - t)

/-- Go map assignment `m[k] = v`: update the entry if the key is
present, otherwise add it. -/
def mapInsert (m : List (ℚ × ℚ)) (k v : ℚ) : List (ℚ × ℚ) :=
  if m.any (fun p => p.1 = k) then m.map (fun p => if p.1 = k then (k, v) else p)
  else m ++ [(k, v)]

inductive StepResult where
  | next (s : SessionState) (out : List Effect)
  | fail (playlistID : ℤ)
  | panicked
deriving DecidableEq

/-- One iteration of the event loop switch. `ids` is `playlistIDs`.
`fail` is the returned error for a too-large `playlist_entry_id`;
`panicked` is the runtime panic of `playlistIDs[msg.PlaylistID-1]`
when the 0-based index is negative — only `id >= len(playlistIDs)` is
checked before the indexing. -/
def stepPlay (ids : List ℕ) (env : Env) (s : SessionState) (msg : Message) : StepResult :=
  if msg.event = "property-change" then
    if msg.name = "time-pos" then
      match msg.data with
      | none => .next s []
      | some .other => .next s []
      | some (.num x) =>
        let s1 : SessionState := { s with pos := x }
        let endPos := isInsideSkippableSegment s1.skippableSegments s1.pos
        let seekOut : List Effect := if endPos ≠ 0 then [.sendSeek endPos] else []
        if timeSinceGT3 env.now s1.lastProgressUpdate then
          if env.progressOk then
            .next { s1 with lastProgressUpdate := some env.now }
              (seekOut ++ [.reportProgress s1.itemIdx (secondsToTicks s1.pos)])
          else
            .next s1 (seekOut ++ [.reportProgress s1.itemIdx (secondsToTicks s1.pos)])
        else
          .next s1 seekOut
    else
      .next s []
  else if msg.event = "start-file" then
    let id : ℤ := msg.playlistID - 1
    if (ids.length : ℤ) ≤ id then .fail msg.playlistID
    else if id < 0 then .panicked
    else
      let idx := ids.getD id.toNat 0
      let s1 : SessionState := { s with itemIdx := idx }
      let newSegs := env.segments.foldl
        (fun m p => mapInsert m (ticksToSeconds p.1) (ticksToSeconds p.2))
        s1.skippableSegments
      let s2 : SessionState := { s1 with skippableSegments := newSegs }
      .next s2 (Effect.reportStart idx (secondsToTicks s.pos)
        :: env.subtitles.map (fun u => Effect.addSubtitle u.1 u.2.1 u.2.2))
  else if msg.event = "seek" then
    .next { s with lastProgressUpdate := none } []
  else if msg.event = "end-file" ∨ msg.event = "shutdown" then
    .next s [.reportStopped s.itemIdx (secondsToTicks s.pos)]
  else
    .next s []

inductive RunResult where
  | ok (s : SessionState) (out : List Effect)
  | failed (playlistID : ℤ) (out : List Effect)
  | panicked (out : List Effect)
deriving DecidableEq

/-- Run the loop over a whole inbound message stream, accumulating the
effects in order; the loop stops early only on the returned error or
the panic, otherwise it consumes the stream to its end. -/
def runPlay (ids : List ℕ) : SessionState → List (Env × Message) → RunResult
  | s, [] => .ok s []
  | s, (env, msg) :: rest =>
    match stepPlay ids env s msg with
    | .next s1 out =>
      match runPlay ids s1 rest with
      | .ok sf outs => .ok sf (out ++ outs)
      | .failed pid outs => .failed pid (out ++ outs)
      | .panicked outs => .panicked (out ++ outs)
    | .fail pid => .failed pid []
    | .panicked => .panicked []

/-- Shorthand for a numeric time-pos property-change message. -/
def timePosMsg (x : ℚ) : Message :=
  { event := "property-change", name := "time-pos", data := some (.num x) }

def startFileMsg (k : ℤ) : Message :=
  { event := "start-file", playlistID := k }

def shutdownMsg : Message := { event := "shutdown" }

/-! ### Report position handling (jellyfin/client.go)

`ReportPlaybackStopped`/`ReportPlaybackProgress` in the checked-out
client multiply their position argument by 10,000,000 before putting it
in `PositionTicks`, while the call sites in play.go already pass
`secondsToTicks(pos)`. -/

/-- client.go: `posTicks := pos * 10000000` in ReportPlaybackStopped. -/
def clientStoppedPositionTicks (pos : ℤ) : ℤ := pos * 10000000

/-- client.go: `posTicks := pos * 10000000` in ReportPlaybackProgress. -/
def clientProgressPositionTicks (pos : ℤ) : ℤ := pos * 10000000

/-- The PositionTicks value actually transmitted for a stop report when
play.go's call site `ReportPlaybackStopped(item, secondsToTicks(pos))`
is composed with client.go's body. -/
def transmittedStoppedTicks (posSeconds : ℚ) : ℤ :=
  clientStoppedPositionTicks (secondsToTicks posSeconds)

/-! ## Helper lemmas -/

/-- The item index a load call is about. -/
def actItem : BuildAct → ℕ
  | .load i => i
  | .app i => i
  | .pre i => i

/-- The command a load call sends, `none` when it refuses to send. -/
def actCmd (old : Bool) : BuildAct → Option IssuedCmd
  | .load i => some (.replaceC i)
  | .app i => some (.appendC i)
  | .pre i => if old then none else some (.insertFrontC i)

theorem foldl_doBuild (old : Bool) (l : List BuildAct) :
    ∀ ids cmds, l.foldl (doBuild old) (ids, cmds) =
      (ids ++ l.map actItem, cmds ++ l.filterMap (actCmd old)) := by
  induction l with
  | nil => intro ids cmds; simp
  | cons a l ih =>
    intro ids cmds
    cases a with
    | load i => simp [doBuild, actItem, actCmd, ih]
    | app i => simp [doBuild, actItem, actCmd, ih]
    | pre i =>
      cases old with
      | false => simp [doBuild, actItem, actCmd, ih]
      | true => simp [doBuild, actItem, actCmd, ih]

/-- Total command view of a load call on a current player, where every
call sends a command. -/
def actCmdF : BuildAct → IssuedCmd
  | .load i => .replaceC i
  | .app i => .appendC i
  | .pre i => .insertFrontC i

theorem filterMap_actCmd_false (l : List BuildAct) :
    l.filterMap (actCmd false) = l.map actCmdF := by
  have h : actCmd false = some ∘ actCmdF := by funext a; cases a <;> rfl
  rw [h, List.filterMap_eq_map]

theorem len_filterMap_actCmd_true (l : List BuildAct) :
    (l.filterMap (actCmd true)).length + l.countP BuildAct.isPre = l.length := by
  induction l with
  | nil => simp
  | cons a l ih => cases a <;> simp [actCmd, BuildAct.isPre, List.countP_cons] <;> omega

/-! ## Claims -/

/-- C1: on a current player, Play issues load-replace for the start
index s, then load-append for s+1..n-1 ascending, then
load-insert-at-front for s-1..0 descending, and the slot map sends slot
k (1-based, command-issue order) to the item index loaded by the k-th
command; for 4 items with start index 2 the slot map is [2, 3, 1, 0]
and the command order is replace 2, append 3, insert-front 1,
insert-front 0. -/
theorem c1_playlist_order_and_slot_map :
    ∀ n s : ℕ,
      (buildPlaylist false n s).2 =
        IssuedCmd.replaceC s ::
          ((List.range' (s + 1) (n - (s + 1))).map IssuedCmd.appendC
            ++ (List.range s).reverse.map IssuedCmd.insertFrontC) ∧
      (buildPlaylist false n s).1 = (buildPlaylist false n s).2.map IssuedCmd.item ∧
      (buildPlaylist false 4 2).1 = [2, 3, 1, 0] ∧
      (buildPlaylist false 4 2).2 =
        [IssuedCmd.replaceC 2, IssuedCmd.appendC 3, IssuedCmd.insertFrontC 1,
          IssuedCmd.insertFrontC 0] := by
  intro n s
  have h := foldl_doBuild false (buildActs n s) [] []
  refine ⟨?_, ?_, by decide, by decide⟩
  · rw [buildPlaylist, h, filterMap_actCmd_false]
    simp [buildActs, List.map_map]
    exact ⟨rfl, rfl⟩
  · rw [buildPlaylist, h]
    rw [filterMap_actCmd_false]
    simp [List.map_map]
    intro a _
    cases a <;> rfl

/-- C7 (amended): at every point of playlist construction on a current
player, the slot-map length equals the number of commands issued so
far; on an old player refused front-insertions still extend the map, so
the map length exceeds the issued-command count by the number of
front-insert calls made so far. -/
theorem c7_slot_map_length_amended :
    (∀ n s k : ℕ, (buildState false n s k).1.length = (buildState false n s k).2.length) ∧
    (∀ n s k : ℕ, (buildState true n s k).1.length =
      (buildState true n s k).2.length + ((buildActs n s).take k).countP BuildAct.isPre) := by
  constructor
  · intro n s k
    rw [buildState, foldl_doBuild, filterMap_actCmd_false]
    simp only [List.nil_append, List.length_map]
  · intro n s k
    rw [buildState, foldl_doBuild]
    have h := len_filterMap_actCmd_true ((buildActs n s).take k)
    simp only [List.nil_append, List.length_map]
    omega

/-- C7 counterexample: on an old player with two items and start index
1, after both load calls the slot map has two entries but only one
command (the replace) was ever issued, refuting the claim's "for every
player version" equality. -/
theorem c7_old_player_counterexample :
    (buildState true 2 1 2).1.length = 2 ∧ (buildState true 2 1 2).2.length = 1 := by
  decide

/-- C4 (amended): the old-player gate takes the first line of the
banner, the second whitespace field, strips a leading v and a trailing
dash suffix, and splits on dots into exactly three components; when a
string fails this structural parse the gate yields false, and when all
three components parse as integers the gate is exactly lexicographic
comparison against (0, 38, 0) — "0.37.0" is old, "0.38.0" and
"0.39.2-dirty" are not. Components are parsed left to right during the
comparison, so a non-integer component yields false only when it is
reached before the comparison is decided. -/
theorem c4_version_gate_amended :
    (∀ s, versionParts s = none → isOldMpv s = false) ∧
    (∀ s x y z, specParsedVersion s = some (x, y, z) → (isOldMpv s = true ↔ lexLt380 x y z)) ∧
    isOldMpv "mpv 0.37.0\nCopyright" = true ∧
    isOldMpv "mpv 0.38.0\n" = false ∧
    isOldMpv "mpv v0.39.2-dirty\n" = false := by
  refine ⟨?_, ?_, by decide, by decide, by decide⟩
  · intro s h
    simp [isOldMpv, h]
  · intro s x y z h
    unfold specParsedVersion at h
    split at h
    next a b c heq =>
      split at h
      next x' y' z' hx hy hz =>
        injection h with h'
        obtain ⟨rfl, rfl, rfl⟩ : x' = x ∧ y' = y ∧ z' = z := by
          have h1 := congrArg Prod.fst h'
          have h2 := congrArg (fun p => p.2.1) h'
          have h3 := congrArg (fun p => p.2.2) h'
          exact ⟨h1, h2, h3⟩
        simp [isOldMpv, heq, versionCmpLoop, hx, hy, hz]
        unfold lexLt380
        omega
      next => exact absurd h (by simp)
    next => exact absurd h (by simp)

/-- C4 witness: the amended theorem applied at a banner with no newline
(structural parse fails, gate false) and at the fully parsable banner
"mpv 1.2.3" (gate equals the lexicographic test). -/
theorem c4_version_gate_witness :
    isOldMpv "no second field" = false ∧
    (isOldMpv "mpv 1.2.3\n" = true ↔ lexLt380 1 2 3) :=
  ⟨c4_version_gate_amended.1 "no second field" (by decide),
    c4_version_gate_amended.2.1 "mpv 1.2.3\n" 1 2 3 (by decide)⟩

/-- C4 counterexample: the banner "mpv 0.37.x" does not split into
three integers — the claim as stated says any such parse failure yields
old = false — yet the code answers true, because 37 < 38 decides the
comparison before the third component is ever parsed. -/
theorem c4_lazy_parse_counterexample :
    isOldMpv "mpv 0.37.x\nCopyright" = true ∧
    specParsedVersion "mpv 0.37.x\nCopyright" = none := by
  decide

/-- C2 (amended): on a start-file event whose slot number k has its
0-based index k-1 at or beyond the slot-map length, Play returns an
error ending the session; but for k ≤ 0 (in particular k = 0, which is
never a recorded slot) the guard does not fire and the negative slice
index panics instead of returning an error. -/
theorem c2_unknown_slot_amended :
    (∀ (ids : List ℕ) (env : Env) (s : SessionState) (k : ℤ),
      (ids.length : ℤ) ≤ k - 1 → stepPlay ids env s (startFileMsg k) = StepResult.fail k) ∧
    (∀ (ids : List ℕ) (env : Env) (s : SessionState) (k : ℤ),
      k - 1 < (ids.length : ℤ) → k - 1 < 0 →
        stepPlay ids env s (startFileMsg k) = StepResult.panicked) := by
  constructor
  · intro ids env s k h
    simp only [stepPlay, startFileMsg]
    rw [if_neg (by decide), if_pos trivial, if_pos h]
  · intro ids env s k h1 h2
    simp only [stepPlay, startFileMsg]
    rw [if_neg (by decide), if_pos trivial, if_neg (not_le.mpr h1), if_pos h2]

/-- C2 witness: the amended theorem applied to a start-file event for
slot 5 with an empty slot map gives the returned error. -/
theorem c2_unknown_slot_witness :
    stepPlay [] {} (initState 0 0) (startFileMsg 5) = StepResult.fail 5 :=
  c2_unknown_slot_amended.1 [] {} (initState 0 0) 5 (by decide)

/-- C2 counterexample: a start-file event with slot number 0 — a slot
number with no recorded mapping — does not return an error as the claim
states: the 0-based index is -1, the only guard checks the upper bound,
and the negative slice index panics. -/
theorem c2_slot_zero_counterexample :
    stepPlay [0] {} (initState 0 0) (startFileMsg 0) = StepResult.panicked := by
  decide

/-- C9 (amended): every outbound request serialized for a command of
the vocabulary always contains the command field, but the request_id
field is present only when the generated correlation id is nonzero —
the omitempty struct tag drops a zero id, and rand.Intn(1000) does
produce 0. -/
theorem c9_request_fields_amended :
    ∀ (c : MpvCommand) (old : Bool) (id : ℕ) (cmd : List GoVal),
      encodeCommand old c = some cmd →
        (marshalRequest cmd id).map Prod.fst =
          if id = 0 then ["command"] else ["command", "request_id"] := by
  intro c old id cmd _
  by_cases h : id = 0 <;> simp [marshalRequest, h]

/-- C9 witness: the amended theorem applied to the observe-property
command with correlation id 7, whose serialization has both fields. -/
theorem c9_request_fields_witness :
    (marshalRequest [GoVal.str "observe_property", GoVal.int 1, GoVal.str "time-pos"] 7).map
        Prod.fst =
      if 7 = 0 then ["command"] else ["command", "request_id"] :=
  c9_request_fields_amended (.observe "time-pos") false 7 _ rfl

/-- C9 counterexample: with correlation id 0 — a value rand.Intn(1000)
can generate — the serialized observe-property request carries only the
command field and no request_id field, refuting the claim that every
outbound request contains both. -/
theorem c9_zero_id_counterexample :
    (encodeCommand false (MpvCommand.observe "time-pos")).map
        (fun cmd => (marshalRequest cmd 0).map Prod.fst) = some ["command"] ∧
    0 < randIntnBound := by
  decide

/-- C8: the claim is right about the intended unit — positions are in
ticks, ticks = seconds x 10,000,000 — and play.go passes
secondsToTicks(pos) to the report calls, but the checked-in client.go
multiplies its position argument by 10,000,000 once more before
transmission, so a stop or progress report at 1 second transmits
10^14 instead of 10^7: a double conversion, contradicting play.go's
own call sites. -/
theorem c8_double_tick_conversion :
    transmittedStoppedTicks 1 = 100000000000000 ∧
    clientProgressPositionTicks (secondsToTicks 1) = 100000000000000 ∧
    secondsToTicks 1 = 10000000 ∧
    transmittedStoppedTicks 1 ≠ secondsToTicks 1 := by
  norm_num [transmittedStoppedTicks, clientStoppedPositionTicks, clientProgressPositionTicks,
    secondsToTicks]

/-- C6 (amended): observing a shutdown event makes the loop report
playback stopped at the current position, but does not terminate it:
the handler leaves the state unchanged and the loop moves on to the
next inbound message, stopping only when the line stream ends. -/
theorem c6_shutdown_continues_amended :
    ∀ (ids : List ℕ) (env : Env) (s : SessionState),
      stepPlay ids env s shutdownMsg =
        StepResult.next s [Effect.reportStopped s.itemIdx (secondsToTicks s.pos)] := by
  intro ids env s
  simp only [stepPlay, shutdownMsg]
  rw [if_neg (by decide), if_neg (by decide), if_neg (by decide)]
  simp

/-- C6 counterexample: in the stream [shutdown, time-pos 42] the
time-pos message that follows shutdown is still processed — the final
position is 42, not the 0 it had at the shutdown — refuting the claim
that no inbound message after shutdown is ever processed. -/
theorem c6_post_shutdown_processed_counterexample :
    runPlay [] (initState 0 0)
        [({ now := 1 }, shutdownMsg), ({ now := 2 }, timePosMsg 42)] =
      RunResult.ok ⟨42, some 0, 0, []⟩ [Effect.reportStopped 0 0] := by
  have hsec : secondsToTicks 0 = 0 := by norm_num [secondsToTicks]
  have h1 : stepPlay [] ({ now := 1 } : Env) (initState 0 0) shutdownMsg =
      StepResult.next (initState 0 0) [Effect.reportStopped 0 0] := by
    simp only [stepPlay, shutdownMsg]
    rw [if_neg (by decide), if_neg (by decide), if_neg (by decide)]
    simp [initState, hsec]
  have h2 : stepPlay [] ({ now := 2 } : Env) (initState 0 0) (timePosMsg 42) =
      StepResult.next ⟨42, some 0, 0, []⟩ [] := by
    norm_num [stepPlay, timePosMsg, initState, isInsideSkippableSegment, timeSinceGT3]
  simp only [runPlay, h1, h2]
  simp

/-- Shape of one loop iteration on a numeric time-pos message: the
position is updated first, then the segment-skip seek, then the
debounced progress report. -/
theorem stepPlay_timePos (ids : List ℕ) (env : Env) (s : SessionState) (x : ℚ) :
    stepPlay ids env s (timePosMsg x) =
      (let s1 : SessionState := { s with pos := x }
      let endPos := isInsideSkippableSegment s1.skippableSegments x
      let seekOut : List Effect := if endPos ≠ 0 then [.sendSeek endPos] else []
      if timeSinceGT3 env.now s.lastProgressUpdate then
        if env.progressOk then
          .next { s1 with lastProgressUpdate := some env.now }
            (seekOut ++ [.reportProgress s.itemIdx (secondsToTicks x)])
        else .next s1 (seekOut ++ [.reportProgress s.itemIdx (secondsToTicks x)])
      else .next s1 seekOut) := rfl

/-- C5 (amended): a numeric time-pos event attempts a progress report
exactly when strictly more than 3 seconds have elapsed since the
debounce timestamp (the moment of the last successful report, or the
session start, or cleared by a seek); at exactly 3 seconds the report
is suppressed. A failed report leaves the timestamp unchanged and a
successful one sets it to the current time, so once more than 3 seconds
have passed every later tick retries until one succeeds. -/
theorem c5_debounce_amended :
    (∀ (ids : List ℕ) (env : Env) (s : SessionState) (x : ℚ) (s' : SessionState)
        (out : List Effect),
      stepPlay ids env s (timePosMsg x) = StepResult.next s' out →
        ((Effect.reportProgress s.itemIdx (secondsToTicks x) ∈ out) ↔
          timeSinceGT3 env.now s.lastProgressUpdate = true) ∧
        (env.progressOk = false → s'.lastProgressUpdate = s.lastProgressUpdate) ∧
        (env.progressOk = true → timeSinceGT3 env.now s.lastProgressUpdate = true →
          s'.lastProgressUpdate = some env.now)) ∧
    (∀ now now' t : ℚ, timeSinceGT3 now (some t) = true → now ≤ now' →
      timeSinceGT3 now' (some t) = true) := by
  constructor
  · intro ids env s x s' out h
    rw [stepPlay_timePos] at h
    dsimp only at h
    cases hgt : timeSinceGT3 env.now s.lastProgressUpdate with
    | false =>
      simp only [hgt, Bool.false_eq_true, if_false] at h
      cases h
      refine ⟨?_, fun _ => rfl, fun _ hgt2 => absurd hgt2 (by simp)⟩
      simp only [Bool.false_eq_true, iff_false]
      intro hmem
      by_cases he : isInsideSkippableSegment
          (({ s with pos := x } : SessionState)).skippableSegments x ≠ 0 <;>
        simp [he] at hmem
    | true =>
      cases hok : env.progressOk with
      | true =>
        simp only [hgt, hok, if_true] at h
        cases h
        refine ⟨?_, fun hf => absurd hf (by simp [hok]), fun _ _ => rfl⟩
        simp
      | false =>
        simp only [hgt, hok, Bool.false_eq_true, if_true, if_false] at h
        cases h
        refine ⟨?_, fun _ => rfl, fun ht _ => absurd ht (by simp)⟩
        simp
  · intro now now' t h hle
    simp only [timeSinceGT3, decide_eq_true_eq] at h ⊢
    linarith

/-- C5 witness: the amended theorem applied at a tick at time 10 with
the debounce timestamp at 0, where the report fires and the timestamp
advances to 10, and the monotonicity part applied at times 10 and 14. -/
theorem c5_debounce_witness :
    (Effect.reportProgress 0 (secondsToTicks 5) ∈ [Effect.reportProgress 0 50000000] ↔
      timeSinceGT3 10 (some 0) = true) ∧
    (SessionState.mk 5 (some 10) 0 []).lastProgressUpdate = some 10 ∧
    timeSinceGT3 14 (some 0) = true := by
  have hstep : stepPlay [] ({ now := 10 } : Env) (initState 0 0) (timePosMsg 5) =
      StepResult.next ⟨5, some 10, 0, []⟩ [Effect.reportProgress 0 50000000] := by
    norm_num [stepPlay, timePosMsg, initState, isInsideSkippableSegment, timeSinceGT3,
      secondsToTicks]
  have h := c5_debounce_amended.1 [] ({ now := 10 } : Env) (initState 0 0) 5 _ _ hstep
  exact ⟨h.1, h.2.2 rfl (by norm_num [timeSinceGT3, initState]),
    c5_debounce_amended.2 10 14 0 (by norm_num [timeSinceGT3]) (by norm_num)⟩

/-- C5 counterexample: the first tick (at time 10, anchor 0) reports
successfully, setting the timestamp to 10; the second tick arrives at
time 13 — exactly 3 seconds after the last successful report, when the
claim's "at least 3 seconds" says a report is issued — yet no report is
attempted, because the code requires strictly more than 3 seconds. -/
theorem c5_exact_three_seconds_counterexample :
    runPlay [] (initState 0 0) [({ now := 10 }, timePosMsg 5), ({ now := 13 }, timePosMsg 6)] =
      RunResult.ok ⟨6, some 10, 0, []⟩ [Effect.reportProgress 0 50000000] := by
  have h1 : stepPlay [] ({ now := 10 } : Env) (initState 0 0) (timePosMsg 5) =
      StepResult.next ⟨5, some 10, 0, []⟩ [Effect.reportProgress 0 50000000] := by
    norm_num [stepPlay, timePosMsg, initState, isInsideSkippableSegment, timeSinceGT3,
      secondsToTicks]
  have h2 : stepPlay [] ({ now := 13 } : Env) ⟨5, some 10, 0, []⟩ (timePosMsg 6) =
      StepResult.next ⟨6, some 10, 0, []⟩ [] := by
    norm_num [stepPlay, timePosMsg, isInsideSkippableSegment, timeSinceGT3]
  simp only [runPlay, h1, h2]
  simp

/-- Shape of one loop iteration on a start-file message whose slot
number passes both bound conditions: the item is resolved through the
slot map, a start report is attempted at the pre-event position, the
fetched segments are written into the segment map, and the subtitle
attaches follow. -/
theorem stepPlay_startFile_ok (ids : List ℕ) (env : Env) (s : SessionState) (k : ℤ)
    (h1 : ¬((ids.length : ℤ) ≤ k - 1)) (h2 : ¬(k - 1 < 0)) :
    stepPlay ids env s (startFileMsg k) =
      StepResult.next
        ⟨s.pos, s.lastProgressUpdate, ids.getD (k - 1).toNat 0,
          env.segments.foldl
            (fun m p => mapInsert m (ticksToSeconds p.1) (ticksToSeconds p.2))
            s.skippableSegments⟩
        (Effect.reportStart (ids.getD (k - 1).toNat 0) (secondsToTicks s.pos)
          :: env.subtitles.map (fun u => Effect.addSubtitle u.1 u.2.1 u.2.2)) := by
  simp only [stepPlay, startFileMsg]
  rw [if_neg (by decide), if_pos trivial, if_neg h1, if_neg h2]

theorem mem_mapInsert_of_ne {m : List (ℚ × ℚ)} {a b k v : ℚ}
    (h : (a, b) ∈ m) (hk : k ≠ a) : (a, b) ∈ mapInsert m k v := by
  unfold mapInsert
  split
  · refine List.mem_map.mpr ⟨(a, b), h, ?_⟩
    rw [if_neg]
    exact fun e => hk (by simpa using e.symm)
  · exact List.mem_append_left _ h

theorem mem_foldl_mapInsert (l : List (ℤ × ℤ)) :
    ∀ (m : List (ℚ × ℚ)) (a b : ℚ), (a, b) ∈ m →
      (∀ p ∈ l, ticksToSeconds p.1 ≠ a) →
      (a, b) ∈ l.foldl
        (fun m p => mapInsert m (ticksToSeconds p.1) (ticksToSeconds p.2)) m := by
  induction l with
  | nil => intro m a b h _; exact h
  | cons p l ih =>
    intro m a b h hne
    simp only [List.foldl_cons]
    exact ih _ a b (mem_mapInsert_of_ne h (hne p (List.mem_cons_self p l)))
      (fun q hq => hne q (List.mem_cons_of_mem p hq))

/-- C3 (amended): processing a start-file event merges the segments
fetched for the newly started item into the existing skip-segment map
by per-key assignment; segments recorded for previously playing items
are retained whenever their start key is not re-fetched — the map is
not replaced. -/
theorem c3_segments_merge_amended :
    ∀ (ids : List ℕ) (env : Env) (s : SessionState) (k : ℤ) (s' : SessionState)
      (out : List Effect),
      stepPlay ids env s (startFileMsg k) = StepResult.next s' out →
        s'.skippableSegments = env.segments.foldl
          (fun m p => mapInsert m (ticksToSeconds p.1) (ticksToSeconds p.2))
          s.skippableSegments ∧
        ∀ a b, (a, b) ∈ s.skippableSegments →
          (∀ p ∈ env.segments, ticksToSeconds p.1 ≠ a) →
          (a, b) ∈ s'.skippableSegments := by
  intro ids env s k s' out h
  simp only [stepPlay, startFileMsg] at h
  rw [if_neg (by decide), if_pos trivial] at h
  by_cases h1 : (ids.length : ℤ) ≤ k - 1
  · rw [if_pos h1] at h; cases h
  · rw [if_neg h1] at h
    by_cases h2 : k - 1 < 0
    · rw [if_pos h2] at h; cases h
    · rw [if_neg h2] at h
      cases h
      exact ⟨rfl, fun a b hm hne => mem_foldl_mapInsert env.segments _ a b hm hne⟩

/-- C3 witness: the amended theorem applied to a start-file for slot 1
with an empty fetch, where the previously recorded segment (10, 20)
survives in the post-event map. -/
theorem c3_segments_merge_witness :
    ((10 : ℚ), (20 : ℚ)) ∈ [((10 : ℚ), (20 : ℚ))] := by
  have hstep : stepPlay [0] ({} : Env) ⟨0, some 0, 0, [(10, 20)]⟩ (startFileMsg 1) =
      StepResult.next ⟨0, some 0, 0, [(10, 20)]⟩ [Effect.reportStart 0 0] := by
    rw [stepPlay_startFile_ok _ _ _ 1 (by decide) (by decide)]
    norm_num [secondsToTicks]
  exact (c3_segments_merge_amended [0] _ _ 1 _ _ hstep).2 10 20 (by simp) (by simp)

/-- C3 counterexample: item 0 is playing with segment (10, 20)
recorded; a start-file for item 1 fetches the single segment
(30, 40) (in ticks, 300000000 to 400000000) — yet after the event the
map still contains (10, 20), the previous item's segment, refuting the
claim that the set then contains exactly the new item's segments. -/
theorem c3_stale_segment_counterexample :
    stepPlay [0, 1] ({ segments := [(300000000, 400000000)] } : Env)
        ⟨0, some 0, 0, [(10, 20)]⟩ (startFileMsg 2) =
      StepResult.next ⟨0, some 0, 1, [(10, 20), (30, 40)]⟩ [Effect.reportStart 1 0] := by
  rw [stepPlay_startFile_ok _ _ _ 2 (by decide) (by decide)]
  norm_num [mapInsert, ticksToSeconds, secondsToTicks]

/-- C10: the session position starts at 0; no event other than a
numeric time-pos property-change ever modifies it — in particular a
start-file event leaves it unchanged — and the immediate playback-start
report attempted on a start-file event carries exactly the position
held before the event (the last observed position of the previous item,
or 0 when none arrived), never the new item's own start offset. -/
theorem c10_start_report_frame :
    (∀ (t0 : ℚ) (idx : ℕ), (initState t0 idx).pos = 0) ∧
    (∀ (ids : List ℕ) (env : Env) (s : SessionState) (msg : Message) (s' : SessionState)
        (out : List Effect),
      stepPlay ids env s msg = StepResult.next s' out →
        (msg.event = "property-change" → msg.name = "time-pos" →
          ∀ x : ℚ, msg.data ≠ some (MData.num x)) →
        s'.pos = s.pos) ∧
    (∀ (ids : List ℕ) (env : Env) (s : SessionState) (k : ℤ) (s' : SessionState)
        (out : List Effect),
      stepPlay ids env s (startFileMsg k) = StepResult.next s' out →
        s'.pos = s.pos ∧ Effect.reportStart s'.itemIdx (secondsToTicks s.pos) ∈ out) := by
  refine ⟨fun _ _ => rfl, ?_, ?_⟩
  · intro ids env s msg s' out h hnm
    unfold stepPlay at h
    by_cases he : msg.event = "property-change"
    · rw [if_pos he] at h
      by_cases hn : msg.name = "time-pos"
      · rw [if_pos hn] at h
        cases hd : msg.data with
        | none => rw [hd] at h; cases h; rfl
        | some md =>
          cases md with
          | other => rw [hd] at h; cases h; rfl
          | num x => exact absurd hd (hnm he hn x)
      · rw [if_neg hn] at h; cases h; rfl
    · rw [if_neg he] at h
      by_cases hs : msg.event = "start-file"
      · rw [if_pos hs] at h
        by_cases h1 : (ids.length : ℤ) ≤ msg.playlistID - 1
        · rw [if_pos h1] at h; cases h
        · rw [if_neg h1] at h
          by_cases h2 : msg.playlistID - 1 < 0
          · rw [if_pos h2] at h; cases h
          · rw [if_neg h2] at h; cases h; rfl
      · rw [if_neg hs] at h
        by_cases hk : msg.event = "seek"
        · rw [if_pos hk] at h; cases h; rfl
        · rw [if_neg hk] at h
          by_cases hef : msg.event = "end-file" ∨ msg.event = "shutdown"
          · rw [if_pos hef] at h; cases h; rfl
          · rw [if_neg hef] at h; cases h; rfl
  · intro ids env s k s' out h
    simp only [stepPlay, startFileMsg] at h
    rw [if_neg (by decide), if_pos trivial] at h
    by_cases h1 : (ids.length : ℤ) ≤ k - 1
    · rw [if_pos h1] at h; cases h
    · rw [if_neg h1] at h
      by_cases h2 : k - 1 < 0
      · rw [if_pos h2] at h; cases h
      · rw [if_neg h2] at h
        cases h
        exact ⟨rfl, List.mem_cons_self _ _⟩

/-- C10 witness: the frame theorem applied at the initial state, at a
shutdown event (position unchanged) and at a start-file for slot 1
(position unchanged, start report attempted at the pre-event position
0). -/
theorem c10_start_report_frame_witness :
    (initState 3 1).pos = 0 ∧
    (initState 0 0).pos = (initState 0 0).pos ∧
    (SessionState.mk 0 (some 0) 0 []).pos = (initState 0 0).pos ∧
    Effect.reportStart 0 (secondsToTicks 0) ∈ [Effect.reportStart 0 0] := by
  have hsd : stepPlay [] ({} : Env) (initState 0 0) shutdownMsg =
      StepResult.next (initState 0 0)
        [Effect.reportStopped (initState 0 0).itemIdx
          (secondsToTicks (initState 0 0).pos)] := by
    simp only [stepPlay, shutdownMsg]
    rw [if_neg (by decide), if_neg (by decide), if_neg (by decide)]
    simp
  have hstep : stepPlay [0] ({} : Env) (initState 0 0) (startFileMsg 1) =
      StepResult.next ⟨0, some 0, 0, []⟩ [Effect.reportStart 0 0] := by
    rw [stepPlay_startFile_ok _ _ _ 1 (by decide) (by decide)]
    norm_num [initState, secondsToTicks]
  have h2 := c10_start_report_frame.2.1 [] ({} : Env) (initState 0 0) shutdownMsg _ _ hsd
    (fun he => absurd he (by decide))
  have h3 := c10_start_report_frame.2.2 [0] ({} : Env) (initState 0 0) 1 _ _ hstep
  exact ⟨c10_start_report_frame.1 3 1, h2, h3.1, h3.2⟩

end Jfsh
